import Mathlib

/-!
Shallow embedding of the page-tracking, selection and imperative-API logic of
`src/src/components/PdfHighlighter.tsx` (react-pdf-highlighter-extended).

JavaScript numbers that carry geometry (scroll offsets, heights, confidences)
are modelled as `Rat`; timestamps (`Date.now()`) as `Int`; page numbers as
`Nat`, where `0` plays the role of a falsy `currentPageNumber`.  A JS number
that may be `NaN` (page numbers coming from untrusted highlight data) is
modelled as `Option Rat` with `none` for `NaN`.
-/

namespace PdfHighlighterSpec

/-- A rendered page view, as read from `pageView.div` in the source:
`offsetTop` and `clientHeight` of the page's DOM element. -/
structure PageView where
  offsetTop : Rat
  clientHeight : Rat

/-- Snapshot of the viewer/component state read by `getPrimaryVisiblePage`
(source lines 314-410): the scroll container's metrics, the document's page
count, PDF.js' reported current page (`0` = falsy/absent), the per-page views
(`getPageView` is 0-indexed, `none` when `!pageView || !pageView.div`), the
tracked page `previousPageRef.current`, and `isPageInitializedRef.current`. -/
structure HSnap where
  scrollTop : Rat
  clientHeight : Rat
  numPages : Nat
  currentPageNumber : Nat
  getPageView : Nat → Option PageView
  tracked : Option Nat
  initialized : Bool

/-- `container.scrollTop` (source line 321). -/
def viewportTop (s : HSnap) : Rat := s.scrollTop

/-- `container.clientHeight` (source line 322). -/
def viewportHeight (s : HSnap) : Rat := s.clientHeight

/-- `viewportTop + viewportHeight` (source line 323). -/
def viewportBottom (s : HSnap) : Rat := s.scrollTop + s.clientHeight

/-- `viewportTop + viewportHeight / 2` (source line 324). -/
def viewportCenter (s : HSnap) : Rat := s.scrollTop + s.clientHeight / 2

/-- `|a - b|` on naturals, the model of `Math.abs(a - b)` on page numbers. -/
def natDist (a b : Nat) : Nat := max (a - b) (b - a)

/-- `viewerRef.current.currentPageNumber || 1` (source line 327). -/
def pdfJsPage (s : HSnap) : Nat :=
  if s.currentPageNumber = 0 then 1 else s.currentPageNumber

/-- The scan bounds `(startPage, endPage)` computed at source lines 328-344:
a full scan `[1, numPages]` when no page is tracked or tracking is not yet
initialized, otherwise a window of radius 3 around the PDF.js page when it
drifted more than 2 pages from the tracked page, else a window of radius 2
around the tracked page; windows are clamped to `[1, numPages]`. -/
def pageRange (s : HSnap) : Nat × Nat :=
  match s.tracked, s.initialized with
  | some t, true =>
      if 2 < natDist (pdfJsPage s) t then
        (max 1 (pdfJsPage s - 3), min s.numPages (pdfJsPage s + 3))
      else
        (max 1 (t - 2), min s.numPages (t + 2))
  | _, _ => (1, s.numPages)

/-- The list of page numbers `startPage, ..., endPage` scanned by both loops
of `getPrimaryVisiblePage` (source lines 351 and 375). -/
def pageList (s : HSnap) : List Nat :=
  List.range' (pageRange s).1 ((pageRange s).2 + 1 - (pageRange s).1)

/-- `Math.max(0, visibleBottom - visibleTop)` for a page view (source
lines 359-361 and 381-383). -/
def visibleHeightOn (s : HSnap) (pv : PageView) : Rat :=
  max 0 (min (viewportBottom s) (pv.offsetTop + pv.clientHeight)
    - max (viewportTop s) pv.offsetTop)

/-- Whether page `p` participates in the first (center) loop: it has a
rendered view and its vertical span contains the viewport center (source
lines 352-358). -/
def centerCand (s : HSnap) (p : Nat) : Bool :=
  match s.getPageView (p - 1) with
  | none => false
  | some pv =>
      decide (pv.offsetTop ≤ viewportCenter s
        ∧ viewportCenter s ≤ pv.offsetTop + pv.clientHeight)

/-- `confidence = visibleHeight / viewportHeight` computed in the center loop
(source line 362); `0` for pages without a view. -/
def centerFrac (s : HSnap) (p : Nat) : Rat :=
  match s.getPageView (p - 1) with
  | none => 0
  | some pv => visibleHeightOn s pv / viewportHeight s

/-- `viewportRatio` of the second loop (source lines 384-385), with the
explicit `viewportHeight > 0` guard of the source. -/
def bestFrac (s : HSnap) (p : Nat) : Rat :=
  match s.getPageView (p - 1) with
  | none => 0
  | some pv =>
      if 0 < viewportHeight s then visibleHeightOn s pv / viewportHeight s
      else 0

/-- Whether page `p` can win the second (best-ratio) loop: it has a view and
its ratio exceeds `0.4` (part of the update condition at source line 387). -/
def bestCand (s : HSnap) (p : Nat) : Bool :=
  (s.getPageView (p - 1)).isSome && decide ((2 : Rat)/5 < bestFrac s p)

/-- One iteration of either selection loop: the accumulator `(best, conf)`
is replaced by `(some p, f p)` exactly when `p` is a candidate and its score
strictly exceeds the running confidence (source lines 364-367 and 387-390). -/
def selStep (cand : Nat → Bool) (f : Nat → Rat)
    (acc : Option Nat × Rat) (p : Nat) : Option Nat × Rat :=
  if cand p && decide (acc.2 < f p) then (some p, f p) else acc

/-- The whole loop: a left fold of `selStep` over the scanned pages. -/
def selFold (cand : Nat → Bool) (f : Nat → Rat)
    (ps : List Nat) (acc : Option Nat × Rat) : Option Nat × Rat :=
  ps.foldl (selStep cand f) acc

/-- The fallback chain after both loops fail (source lines 393-407):
tracked page with confidence `0.3` when tracking is initialized, else the
PDF.js current page with confidence `0.25`, else `null`. -/
def fallbackPage (s : HSnap) : Option (Nat × Rat) :=
  match s.tracked, s.initialized with
  | some t, true => some (t, 3/10)
  | _, _ =>
      if s.currentPageNumber ≠ 0 then some (s.currentPageNumber, 1/4)
      else none

/-- The second loop and the fallback chain (source lines 375-409). -/
def afterCenter (s : HSnap) : Option (Nat × Rat) :=
  match selFold (bestCand s) (bestFrac s) (pageList s) (none, 0) with
  | (some bp, bc) => some (bp, bc)
  | (none, _) => fallbackPage s

/-- `getPrimaryVisiblePage` (source lines 314-410): the center loop wins when
its confidence exceeds `0.35`; otherwise the best-ratio loop, then the
fallback chain. -/
def getPrimaryVisiblePage (s : HSnap) : Option (Nat × Rat) :=
  match selFold (centerCand s) (centerFrac s) (pageList s) (none, 0) with
  | (some cp, cc) =>
      if (7 : Rat)/20 < cc then some (cp, cc) else afterCenter s
  | (none, _) => afterCenter s

/-! ### Specification-side rendering of the page heuristic (claim C1)

These definitions follow the wording of the claim, not the loops of the
source: "the page whose vertical span contains the viewport's vertical
center" and "the page with the largest visible-height-to-viewport ratio"
are rendered as a search for the first candidate that dominates every other
candidate, over the filtered candidate list. -/

/-- The plain (ungated) loop step on an already-filtered candidate list. -/
def topStep (f : Nat → Rat) (acc : Option Nat × Rat) (p : Nat) : Option Nat × Rat :=
  if acc.2 < f p then (some p, f p) else acc

/-- The first element of `l` whose score strictly exceeds `c` and is at least
the score of every element of `l`. -/
def firstMaxAbove (f : Nat → Rat) (l : List Nat) (c : Rat) : Option Nat :=
  l.find? (fun p => decide (c < f p) && l.all (fun q => decide (f q ≤ f p)))

/-- Spec reading of the center loop: among scanned pages whose span contains
the viewport center, the one of largest visible fraction (earliest on ties),
provided that fraction is positive. -/
def centerPick (s : HSnap) : Option Nat :=
  firstMaxAbove (centerFrac s) ((pageList s).filter (centerCand s)) 0

/-- Spec reading of the best-ratio loop: among scanned pages whose
visible-height-to-viewport ratio exceeds `0.4`, the one of largest ratio
(earliest on ties). -/
def bestPick (s : HSnap) : Option Nat :=
  firstMaxAbove (bestFrac s) ((pageList s).filter (bestCand s)) 0

/-- Spec reading of everything after the center test fails. -/
def specAfterCenter (s : HSnap) : Option (Nat × Rat) :=
  match bestPick s with
  | some p => some (p, bestFrac s p)
  | none => fallbackPage s

/-- The claim's decision cascade: center page when its visible fraction
exceeds `0.35`; else the largest ratio above `0.4`; else the tracked page
with confidence `0.3` when tracking is initialized; else the renderer's
reported page with confidence `0.25`; else `null`. -/
def getPrimaryVisiblePageSpec (s : HSnap) : Option (Nat × Rat) :=
  match centerPick s with
  | some p =>
      if (7 : Rat)/20 < centerFrac s p then some (p, centerFrac s p)
      else specAfterCenter s
  | none => specAfterCenter s

/-! ### The page-change tracker (claims C4, C6, C8)

`checkPageChange` (source lines 412-557) reads and mutates a cluster of refs;
we bundle them into `TrackState` and model the function as a state
transformer that also returns the list of pages passed to the `onPageChange`
callback during the call.  `Date.now()` is an input `now`; the result of
`getPrimaryVisiblePage()` at the moment of the call is an input `res`; the
viewer's `currentPageNumber` is an input `pdfJs` (`0` = falsy).  The viewer
is assumed present while the handlers run.  A `setTimeout` whose callback is
still pending is recorded in `timeout`; firing a timeout consumes it (the
source keeps a stale handle in `pageChangeTimeoutRef`, observable only
through no-op `clearTimeout` calls). -/

/-- The two kinds of pending `setTimeout` callbacks scheduled by
`checkPageChange`: the 500 ms confirmation recheck (source lines 519-541)
and the 200 ms re-poll (source lines 543-548); both capture the computed
page. -/
inductive TimeoutKind where
  | recheck (page : Nat)
  | retry (page : Nat)
deriving DecidableEq

/-- The refs used by the page-change tracker: `previousPageRef` (`tracked`),
the `currentPage` React state, `pendingPageRef`, `pendingPageCountRef`,
`pageChangeTimeoutRef`, `isPageInitializedRef`, `isCheckingPageRef`, and
`lastPageCheckTimeRef`. -/
structure TrackState where
  tracked : Option Nat := none
  currentPage : Nat := 1
  pending : Option Nat := none
  pendingCount : Nat := 0
  timeout : Option TimeoutKind := none
  initialized : Bool := false
  isChecking : Bool := false
  lastCheckTime : Int := 0
deriving DecidableEq

/-- The component's initial ref values. -/
def initialTrackState : TrackState := {}

/-- The common commit: set the tracked page and React state, mark tracking
initialized, fire `onPageChange`, clear pending state and any timer (source
lines 475-486 and the analogous blocks). -/
def commitPage (st : TrackState) (p : Nat) : TrackState × List Nat :=
  ({ st with tracked := some p, currentPage := p, initialized := true,
             pending := none, pendingCount := 0, timeout := none,
             isChecking := false }, [p])

/-- The `pageDiff > 1 || previousPageRef.current === null` branch (source
lines 451-487): commit the computed page when its confidence reaches the
minimum (`0.4` with no tracked page, `0.3` otherwise); on low confidence,
fall back to committing the renderer's reported page when it is truthy and
differs from the tracked page. -/
def bigJump (st : TrackState) (p : Nat) (c : Rat) (pdfJs : Nat) :
    TrackState × List Nat :=
  let minConfidence : Rat := if st.tracked = none then 2/5 else 3/10
  if c < minConfidence then
    if pdfJs ≠ 0 ∧ some pdfJs ≠ st.tracked then commitPage st pdfJs
    else (st, [])
  else commitPage st p

/-- The `pageDiff === 1` branch (source lines 489-549): immediate commit
above confidence `0.55`; otherwise record the pending page, and schedule the
500 ms confirmation recheck once the same page has been observed at least
twice, else the 200 ms re-poll.  Both scheduling paths leave
`isCheckingPageRef` set. -/
def nearBranch (st : TrackState) (p : Nat) (c : Rat) : TrackState × List Nat :=
  if (11 : Rat)/20 < c then commitPage st p
  else
    let newCount := if st.pending = some p then st.pendingCount + 1 else 1
    let st2 := { st with pending := some p, pendingCount := newCount }
    if 2 ≤ newCount then
      ({ st2 with timeout := some (.recheck p), isChecking := true }, [])
    else
      ({ st2 with timeout := some (.retry p), isChecking := true }, [])

/-- `checkPageChange` (source lines 412-557) as a state transformer.
The first two guards return untouched; then `lastPageCheckTimeRef` is
stamped; a `null` page result, or a computed page equal to the tracked page,
ends the call without firing (the latter clearing pending state); otherwise
the big-jump or near-page branch runs. -/
def checkPageChange (st : TrackState) (now : Int) (res : Option (Nat × Rat))
    (pdfJs : Nat) : TrackState × List Nat :=
  if st.isChecking then (st, [])
  else if now - st.lastCheckTime < 100 then (st, [])
  else
    let st1 : TrackState := { st with lastCheckTime := now }
    match res with
    | none => (st1, [])
    | some (p, c) =>
        if st1.tracked = some p then
          ({ st1 with pending := none, pendingCount := 0, timeout := none }, [])
        else
          match st1.tracked with
          | none => bigJump st1 p c pdfJs
          | some t =>
              if 1 < natDist p t then bigJump st1 p c pdfJs
              else if natDist p t = 1 then nearBranch st1 p c
              else (st1, [])

/-- The 500 ms confirmation recheck callback (source lines 519-541): commit
the captured page when the fresh `getPrimaryVisiblePage` result names the
same page, that page still differs from the tracked page, and the fresh
confidence exceeds `0.35`; in every case clear pending state and release the
checking flag. -/
def fireRecheck (st : TrackState) (p : Nat) (res : Option (Nat × Rat)) :
    TrackState × List Nat :=
  match res with
  | some (q, c) =>
      if q = p ∧ some p ≠ st.tracked ∧ (7 : Rat)/20 < c then
        ({ st with tracked := some p, currentPage := p, initialized := true,
                   pending := none, pendingCount := 0, timeout := none,
                   isChecking := false }, [p])
      else
        ({ st with pending := none, pendingCount := 0, timeout := none,
                   isChecking := false }, [])
  | none =>
      ({ st with pending := none, pendingCount := 0, timeout := none,
                 isChecking := false }, [])

/-- The 200 ms re-poll callback (source lines 543-548): release the checking
flag and, when the captured page is still pending, run `checkPageChange`
again with fresh inputs. -/
def fireRetry (st : TrackState) (p : Nat) (now : Int)
    (res : Option (Nat × Rat)) (pdfJs : Nat) : TrackState × List Nat :=
  let st1 : TrackState := { st with isChecking := false, timeout := none }
  if st1.pending = some p then checkPageChange st1 now res pdfJs
  else (st1, [])

/-- The immediate part of the `updateviewarea` handler (source lines
575-595): once tracking is initialized, a renderer page more than 2 away
from the tracked page is committed at once (the debounced `checkPageChange`
call it also makes is a separate step). -/
def updateViewArea (st : TrackState) (pdfJs : Nat) : TrackState × List Nat :=
  if st.initialized then
    match st.tracked with
    | some t =>
        if pdfJs ≠ 0 ∧ 2 < natDist pdfJs t then
          ({ st with tracked := some pdfJs, currentPage := pdfJs,
                     pending := none, pendingCount := 0, timeout := none },
           [pdfJs])
        else (st, [])
    | none => (st, [])
  else (st, [])

/-- The delayed body of the `pagesinit` handler (source lines 602-616):
adopt the heuristic's page when its confidence exceeds `0.3`, else the
renderer's truthy reported page — in both cases without comparing against
the tracked page. -/
def pagesInitFire (st : TrackState) (res : Option (Nat × Rat)) (cur : Nat) :
    TrackState × List Nat :=
  match res with
  | some (p, c) =>
      if (3 : Rat)/10 < c then
        ({ st with tracked := some p, currentPage := p, initialized := true }, [p])
      else if cur ≠ 0 then
        ({ st with tracked := some cur, currentPage := cur, initialized := true }, [cur])
      else (st, [])
  | none =>
      if cur ≠ 0 then
        ({ st with tracked := some cur, currentPage := cur, initialized := true }, [cur])
      else (st, [])

/-- One interleaving step of the tracker: a (debounced) `checkPageChange`
call, the firing of whatever timeout is currently armed, or the immediate
part of an `updateviewarea` event.  The payload carries the oracle inputs
(`Date.now()`, the heuristic's result, the renderer's reported page) at the
moment the step runs. -/
inductive TrackStep where
  | check (now : Int) (res : Option (Nat × Rat)) (pdfJs : Nat)
  | timeoutFire (now : Int) (res : Option (Nat × Rat)) (pdfJs : Nat)
  | updateView (pdfJs : Nat)

/-- Run one step against the current state. -/
def trackStep (st : TrackState) : TrackStep → TrackState × List Nat
  | .check now res pdfJs => checkPageChange st now res pdfJs
  | .timeoutFire now res pdfJs =>
      match st.timeout with
      | some (.recheck p) => fireRecheck st p res
      | some (.retry p) => fireRetry st p now res pdfJs
      | none => (st, [])
  | .updateView pdfJs => updateViewArea st pdfJs

/-- Run a sequence of steps, concatenating the pages reported to
`onPageChange`. -/
def runSteps (st : TrackState) : List TrackStep → TrackState × List Nat
  | [] => (st, [])
  | step :: rest =>
      let r1 := trackStep st step
      let r2 := runSteps r1.1 rest
      (r2.1, r1.2 ++ r2.2)

/-- The single-transition fire discipline shared by `checkPageChange`, the
timeout callbacks and `updateviewarea`: either nothing is fired and the
tracked page is kept, or exactly one page is fired, it differs from the
previously tracked page, and it becomes the tracked page. -/
def FiresProperly (tr : Option Nat) (r : TrackState × List Nat) : Prop :=
  (r.2 = [] ∧ r.1.tracked = tr)
  ∨ ∃ p, r.2 = [p] ∧ r.1.tracked = some p ∧ tr ≠ some p

/-! ### Selections (claims C2, C7)

`handleMouseUp` (source lines 658-712) turns a completed pointer text
selection into a `PdfSelection`; the inline `MouseSelection.onSelection`
callback (source lines 1114-1141) does the same for rectangular area
selections.  The DOM range, the library helpers `getClientRects`,
`getBoundingRect` and the coordinate converter `viewportPositionToScaled`
live outside `src/`, so they enter as abstract data and function
parameters. -/

/-- A client rectangle in viewport (device-pixel) coordinates. -/
structure Rect where
  left : Rat
  top : Rat
  width : Rat
  height : Rat
  pageNumber : Nat
deriving DecidableEq

/-- `ViewportPosition`: the bounding rectangle plus all client rectangles of
a selection, in viewport coordinates. -/
structure ViewportPos where
  boundingRect : Rect
  rects : List Rect

/-- The discriminant of a `PdfSelection`. -/
inductive SelectionType where
  | text
  | area
deriving DecidableEq

/-- `Content`: textual content for text selections, an image (data URL) for
area selections. -/
structure Content where
  text : Option String := none
  image : Option String := none

/-- `PdfSelection` over an abstract scaled-position type `S` (the
`makeGhostHighlight` closure is modelled separately via
`GhostHighlight`). -/
structure PdfSelection (S : Type) where
  content : Content
  type : SelectionType
  position : S

/-- `GhostHighlight`: what `makeGhostHighlight` stores — the same content,
type and position as the selection it came from. -/
structure GhostHighlight (S : Type) where
  content : Content
  type : SelectionType
  position : S

/-- The DOM facts read by `handleMouseUp` before it builds a selection:
presence of the container, window selection and viewer, collapsedness,
`rangeCount`, containment of the range in the container, the pages returned
by `getPagesFromRange`, and `selection.toString()`. -/
structure MouseUpEnv where
  containerPresent : Bool
  selectionPresent : Bool
  isCollapsed : Bool
  viewerPresent : Bool
  rangeCount : Nat
  rangeInContainer : Bool
  pages : List Nat
  text : String

/-- `selection.toString().split("\n").join(" ")` (source line 686). -/
def flattenLineBreaks (s : String) : String :=
  String.intercalate " " (s.splitOn "\n")

/-- `handleMouseUp` (source lines 658-712).  `getRects` stands for
`getClientRects(range, pages)`, `getBound` for `getBoundingRect(rects)` and
`toScaled` for `viewportPositionToScaled(viewportPosition, viewer)`, all
defined outside `src/`.  Returns the `PdfSelection` handed to the
`onSelection` callback, or `none` when any guard bails out. -/
def handleMouseUp (S : Type) (toScaled : ViewportPos → S)
    (getRects : List Nat → List Rect) (getBound : List Rect → Rect)
    (env : MouseUpEnv) : Option (PdfSelection S) :=
  if !env.containerPresent || !env.selectionPresent || env.isCollapsed
      || !env.viewerPresent then none
  else if env.rangeCount = 0 then none
  else if !env.rangeInContainer then none
  else if env.pages = [] then none
  else
    let rects := getRects env.pages
    if rects = [] then none
    else
      let viewportPosition : ViewportPos :=
        { boundingRect := getBound rects, rects := rects }
      let scaledPosition := toScaled viewportPosition
      let content : Content :=
        { text := some (flattenLineBreaks env.text) }
      some { content := content, type := .text, position := scaledPosition }

/-- The inline `onSelection` callback given to `MouseSelection` (source
lines 1114-1141): an area selection carries image content, type `"area"`
and the scaled position. -/
def mouseSelectionOnSelection (S : Type) (_viewportPosition : ViewportPos)
    (scaledPosition : S) (image : String) : PdfSelection S :=
  { content := { image := some image }, type := .area,
    position := scaledPosition }

/-! ### The imperative API (claims C5, C9, C10) -/

/-- A JS number that may be `NaN`: `none` models `NaN`. -/
abbrev JSNum : Type := Option Rat

/-- The search state stored by `searchText` for `findNext`/`findPrevious`
(source lines 264-269, 966-971). -/
structure SearchState where
  query : String
  caseSensitive : Bool
  entireWord : Bool
  highlightAll : Bool
deriving DecidableEq

/-- The options object of `searchText`, with the source's defaults (source
lines 958-963). -/
structure SearchOptions where
  caseSensitive : Bool := false
  entireWord : Bool := false
  highlightAll : Bool := true
  findPrevious : Bool := false

/-- A `"find"` event dispatched on the event bus.  Fields the source omits
in a given dispatch are `none`. -/
structure FindEvent where
  query : String
  caseSensitive : Option Bool := none
  entireWord : Option Bool := none
  highlightAll : Option Bool := none
  findPrevious : Option Bool := none
  phraseSearch : Bool := true
deriving DecidableEq

/-- `clearSearch` (source lines 1032-1045): drop the stored search state and
dispatch an empty query. -/
def clearSearch (busPresent : Bool) (st : Option SearchState) :
    Option SearchState × Option FindEvent :=
  if !busPresent then (st, none)
  else
    (none, some { query := "", highlightAll := some false })

/-- `searchText` (source lines 939-982): guard on the find controller and
bus; an all-whitespace query clears the search; otherwise store the search
state and dispatch the query with the given options. -/
def searchText (findPresent busPresent : Bool) (st : Option SearchState)
    (query : String) (options : Option SearchOptions) :
    Option SearchState × Option FindEvent :=
  if !findPresent || !busPresent then (st, none)
  else if query.trim = "" then clearSearch busPresent st
  else
    let o := options.getD {}
    (some { query := query, caseSensitive := o.caseSensitive,
            entireWord := o.entireWord, highlightAll := o.highlightAll },
     some { query := query, caseSensitive := some o.caseSensitive,
            entireWord := some o.entireWord,
            highlightAll := some o.highlightAll,
            findPrevious := some o.findPrevious })

/-- `findNext` (source lines 984-1006): re-dispatch the stored query with
`findPrevious: false`. -/
def findNext (findPresent busPresent : Bool) (st : Option SearchState) :
    Option FindEvent :=
  if !findPresent || !busPresent then none
  else
    match st with
    | none => none
    | some s =>
        if s.query = "" then none
        else
          some { query := s.query, caseSensitive := some s.caseSensitive,
                 entireWord := some s.entireWord,
                 highlightAll := some s.highlightAll,
                 findPrevious := some false }

/-- `findPrevious` (source lines 1008-1030): re-dispatch the stored query
with `findPrevious: true`. -/
def findPrevious (findPresent busPresent : Bool) (st : Option SearchState) :
    Option FindEvent :=
  if !findPresent || !busPresent then none
  else
    match st with
    | none => none
    | some s =>
        if s.query = "" then none
        else
          some { query := s.query, caseSensitive := some s.caseSensitive,
                 entireWord := some s.entireWord,
                 highlightAll := some s.highlightAll,
                 findPrevious := some true }

/-- `getCurrentPage` of the utils record (source lines 1061-1068): the React
state when truthy, else the viewer's truthy reported page, else `1`. -/
def getCurrentPage (currentPage : Nat) (viewerCur : Nat) : Nat :=
  if currentPage ≠ 0 then currentPage
  else if viewerCur ≠ 0 then viewerCur
  else 1

/-- The observable outcome of `goToPage`. -/
inductive GoToOutcome where
  | warnNotReady
  | warnInvalidPage
  | scrolled (pageNumber : Rat)
  | fallbackLink (pageNumber : Rat)
deriving DecidableEq

/-- `goToPage` (source lines 908-937): warn-and-return when the viewer or
link service is missing, or when the page number is `NaN`, below `1` or
above `numPages`; otherwise scroll the page into view (`scrollThrows`
models `scrollPageIntoView` raising, which falls back to the link
service). -/
def goToPage (viewerPresent linkPresent : Bool) (numPages : Nat)
    (scrollThrows : Bool) (pageNumber : JSNum) : GoToOutcome :=
  if !viewerPresent || !linkPresent then .warnNotReady
  else
    match pageNumber with
    | none => .warnInvalidPage
    | some q =>
        if q < 1 ∨ (numPages : Rat) < q then .warnInvalidPage
        else if scrollThrows then .fallbackLink q else .scrolled q

/-- A highlight's position over an abstract scaled bounding-rect type `B`. -/
structure HighlightPos (B : Type) where
  boundingRect : B
  usePdfCoordinates : Bool

/-- The part of a `Highlight` read by `scrollToHighlight`. -/
structure HighlightT (B : Type) where
  id : String
  position : HighlightPos B

/-- The observable outcome of `scrollToHighlight`: early warn return, an
uncaught error (the source dereferences a missing page view), or a smooth
scroll to a target offset with `scrolledToHighlightIdRef` set. -/
inductive ScrollHighlightOutcome where
  | warnInvalidPage
  | error
  | scrolled (targetScrollTop : Rat) (scrolledToHighlightId : String)
deriving DecidableEq

/-- `scrollToHighlight` (source lines 855-906).  `pageNumberOf` models
`Number(boundingRect.pageNumber)`; `getView p` models
`viewerRef.current.getPageView(p)` yielding the page element's `offsetTop`
and its viewport (abstract type `V`); `scaledTop` models
`scaledToViewport(boundingRect, pageViewport, usePdfCoordinates).top`
(defined outside `src/`).  An invalid page number warns and returns; a
fractional or unrendered page crashes on the missing page view; otherwise
the target scroll position is
`offsetTop + scaledTop - SCROLL_MARGIN + (paddingTop ?? 0)`. -/
def scrollToHighlight (B V : Type) (numPages : Nat)
    (getView : Nat → Option (Rat × V)) (scaledTop : B → V → Bool → Rat)
    (pageNumberOf : B → JSNum) (h : HighlightT B) (paddingTop : Option Rat) :
    ScrollHighlightOutcome :=
  match pageNumberOf h.position.boundingRect with
  | none => .warnInvalidPage
  | some q =>
      if q < 1 ∨ (numPages : Rat) < q then .warnInvalidPage
      else if q.den = 1 then
        match getView (q.num.toNat - 1) with
        | none => .error
        | some (offsetTop, v) =>
            .scrolled
              (offsetTop
                + scaledTop h.position.boundingRect v h.position.usePdfCoordinates
                - 10 + paddingTop.getD 0)
              h.id
      else .error

/-- The `pdfScaleValue` prop as seen through `toString()`/`parseFloat`:
the literal `"auto"`, a value parsing to a finite number, or a value parsing
to `NaN`. -/
inductive PdfScaleInput where
  | auto
  | num (q : Rat)
  | nonNumeric
deriving DecidableEq

/-- What `handleScaleValue` does to `viewer.currentScaleValue`. -/
inductive ScaleOutcome where
  | unchanged
  | setAuto
  | setValue (q : Rat)
deriving DecidableEq

/-- `handleScaleValue` (source lines 736-754): bail out unless the viewer
and its `currentScaleValue` are truthy; pass `"auto"` through; clamp a
numeric value into `[0.1, 10.0]`; leave a `NaN` parse unapplied. -/
def handleScaleValue (viewerReady : Bool) (v : PdfScaleInput) : ScaleOutcome :=
  if !viewerReady then .unchanged
  else
    match v with
    | .auto => .setAuto
    | .num q => .setValue (min (max q (1/10)) 10)
    | .nonNumeric => .unchanged

/-- `isEditingOrHighlighting` (source lines 815-822). -/
def isEditingOrHighlighting (hasSelection hasGhost areaInProgress
    editInProgress : Bool) : Bool :=
  hasSelection || hasGhost || areaInProgress || editInProgress

/-- `toggleEditInProgress` (source lines 824-837), restricted to the flag
update: an explicit flag overrides, otherwise the flag is negated. -/
def toggleEditInProgress (flag : Option Bool) (cur : Bool) : Bool :=
  match flag with
  | some b => b
  | none => !cur

/-- `isSelectionInProgress` of the utils record (source lines 1054-1055). -/
def isSelectionInProgress (hasSelection areaInProgress : Bool) : Bool :=
  hasSelection || areaInProgress

/-- The shape of the `PdfHighlighterUtils` record built at source lines
1047-1074, with each closure rendered as a function of the state it reads. -/
structure PdfHighlighterUtilsT (B V S : Type) where
  isEditingOrHighlighting : Bool → Bool → Bool → Bool → Bool
  getCurrentSelection : Option (PdfSelection S) → Option (PdfSelection S)
  getGhostHighlight : Option (GhostHighlight S) → Option (GhostHighlight S)
  removeGhostHighlight : Option (GhostHighlight S) → Option (GhostHighlight S)
  toggleEditInProgress : Option Bool → Bool → Bool
  isEditInProgress : Bool → Bool
  isSelectionInProgress : Bool → Bool → Bool
  scrollToHighlight : Nat → (Nat → Option (Rat × V)) → (B → V → Bool → Rat) →
    (B → JSNum) → HighlightT B → Option Rat → ScrollHighlightOutcome
  getViewer : Option V → Option V
  getTip : Option S → Option S
  setTip : Option S → Option S
  updateTipPosition : Unit → Unit
  getCurrentPage : Nat → Nat → Nat
  goToPage : Bool → Bool → Nat → Bool → JSNum → GoToOutcome
  searchText : Bool → Bool → Option SearchState → String →
    Option SearchOptions → Option SearchState × Option FindEvent
  findNext : Bool → Bool → Option SearchState → Option FindEvent
  findPrevious : Bool → Bool → Option SearchState → Option FindEvent
  clearSearch : Bool → Option SearchState → Option SearchState × Option FindEvent

/-- The record `pdfHighlighterUtils` (source lines 1047-1074), wiring each
field to the corresponding operation; the thin ref accessors
(`getCurrentSelection`, `getGhostHighlight`, `getViewer`, `getTip`) read the
state they are given, `removeGhostHighlight` clears it, and `setTip` stores
its argument. -/
def pdfHighlighterUtils (B V S : Type) : PdfHighlighterUtilsT B V S where
  isEditingOrHighlighting := isEditingOrHighlighting
  getCurrentSelection := fun st => st
  getGhostHighlight := fun st => st
  removeGhostHighlight := fun _ => none
  toggleEditInProgress := toggleEditInProgress
  isEditInProgress := fun st => st
  isSelectionInProgress := isSelectionInProgress
  scrollToHighlight := scrollToHighlight B V
  getViewer := fun st => st
  getTip := fun st => st
  setTip := fun t => t
  updateTipPosition := fun u => u
  getCurrentPage := getCurrentPage
  goToPage := goToPage
  searchText := searchText
  findNext := findNext
  findPrevious := findPrevious
  clearSearch := clearSearch

/-! ### Concrete states used by counterexamples and witnesses -/

/-- A snapshot with a tracked page but tracking not yet initialized (the
component's refs before the first commit can hold this only with
`tracked = none`; the function itself accepts both fields freely). -/
def sTrackedUninit : HSnap where
  scrollTop := 0
  clientHeight := 0
  numPages := 100
  currentPageNumber := 5
  getPageView := fun _ => none
  tracked := some 5
  initialized := false

/-- A snapshot with no tracked page. -/
def sUntracked : HSnap where
  scrollTop := 0
  clientHeight := 0
  numPages := 10
  currentPageNumber := 0
  getPageView := fun _ => none
  tracked := none
  initialized := false

/-- A snapshot tracking page 5 of 100, renderer agreeing. -/
def sTrackedNear : HSnap where
  scrollTop := 0
  clientHeight := 0
  numPages := 100
  currentPageNumber := 5
  getPageView := fun _ => none
  tracked := some 5
  initialized := true

/-- A snapshot tracking page 5 of 100 with the renderer reporting page 20. -/
def sTrackedFar : HSnap where
  scrollTop := 0
  clientHeight := 0
  numPages := 100
  currentPageNumber := 20
  getPageView := fun _ => none
  tracked := some 5
  initialized := true

/-- A sample client rectangle. -/
def rect0 : Rect where
  left := 0
  top := 0
  width := 1
  height := 1
  pageNumber := 1

/-- A sample viewport position built from `rect0`. -/
def vp0 : ViewportPos where
  boundingRect := rect0
  rects := [rect0]

/-- A mouse-up environment in which every guard passes. -/
def env0 : MouseUpEnv where
  containerPresent := true
  selectionPresent := true
  isCollapsed := false
  viewerPresent := true
  rangeCount := 1
  rangeInContainer := true
  pages := [1]
  text := "ab\ncd"

/-- The selection `handleMouseUp` produces on `env0` with the identity
conversion. -/
def sel0 : PdfSelection ViewportPos where
  content := { text := some (flattenLineBreaks env0.text) }
  type := .text
  position := vp0

/-- A highlight whose bounding rect carries a `NaN` page number. -/
def hNaN : HighlightT Unit where
  id := "h"
  position := { boundingRect := (), usePdfCoordinates := false }

/-! ## Lemmas and claim theorems -/

lemma find?_congr {α : Type} (l : List α) (P Q : α → Bool)
    (h : ∀ x ∈ l, P x = Q x) : l.find? P = l.find? Q := by
  induction l with
  | nil => rfl
  | cons a l ih =>
      have ha : P a = Q a := h a (List.mem_cons_self a l)
      by_cases hq : Q a = true
      · rw [List.find?_cons_of_pos l (ha ▸ hq), List.find?_cons_of_pos l hq]
      · have hp : ¬ P a = true := by rw [ha]; exact hq
        rw [List.find?_cons_of_neg l hp, List.find?_cons_of_neg l hq]
        exact ih fun x hx => h x (List.mem_cons_of_mem a hx)

/-- Gating by candidacy inside the loop is filtering the scanned list. -/
lemma selFold_filter (cand : Nat → Bool) (f : Nat → Rat) (ps : List Nat)
    (acc : Option Nat × Rat) :
    selFold cand f ps acc = (ps.filter cand).foldl (topStep f) acc := by
  induction ps generalizing acc with
  | nil => rfl
  | cons p ps ih =>
      by_cases hc : cand p = true
      · simp only [selFold, List.foldl_cons, List.filter_cons, hc, if_pos]
        have hstep : selStep cand f acc p = topStep f acc p := by
          simp [selStep, topStep, hc]
        rw [hstep]
        exact ih (topStep f acc p)
      · simp only [selFold, List.foldl_cons, List.filter_cons, hc]
        have hstep : selStep cand f acc p = acc := by
          simp [selStep, hc]
        rw [hstep]
        simpa using ih acc

/-- The strict-update running maximum computed by the loops picks the first
candidate whose score strictly exceeds the initial confidence and dominates
every candidate. -/
lemma foldl_topStep_eq (f : Nat → Rat) :
    ∀ (l : List Nat) (o : Option Nat) (c : Rat),
      l.foldl (topStep f) (o, c) =
        (match firstMaxAbove f l c with
         | some p => (some p, f p)
         | none => (o, c)) := by
  intro l
  induction l with
  | nil => intro o c; rfl
  | cons p l ih =>
      intro o c
      by_cases hcp : c < f p
      · have hstep : topStep f (o, c) p = (some p, f p) := by
          simp [topStep, hcp]
        rw [List.foldl_cons, hstep, ih (some p) (f p)]
        by_cases hdom : ∀ x ∈ l, f x ≤ f p
        · have hnone : firstMaxAbove f l (f p) = none := by
            apply List.find?_eq_none.mpr
            intro x hx
            simp only [Bool.and_eq_true, decide_eq_true_eq, not_and]
            intro hlt
            exact absurd hlt (not_lt.mpr (hdom x hx))
          have hP : (fun q => decide (c < f q) &&
              ((p :: l).all (fun r => decide (f r ≤ f q)))) p = true := by
            simp only [Bool.and_eq_true, decide_eq_true_eq, List.all_cons,
              List.all_eq_true, decide_eq_true_eq]
            exact ⟨hcp, le_refl (f p), hdom⟩
          rw [hnone]
          simp only [firstMaxAbove]
          rw [List.find?_cons_of_pos l hP]
        · push_neg at hdom
          obtain ⟨q, hq, hfq⟩ := hdom
          have hP : ¬ ((fun r => decide (c < f r) &&
              ((p :: l).all (fun x => decide (f x ≤ f r)))) p = true) := by
            simp only [Bool.and_eq_true, decide_eq_true_eq, List.all_cons,
              List.all_eq_true, decide_eq_true_eq]
            intro h
            exact absurd (h.2.2 q hq) (not_le.mpr hfq)
          simp only [firstMaxAbove]
          rw [List.find?_cons_of_neg l hP]
          have hcong : ∀ x ∈ l,
              (decide (c < f x) && ((p :: l).all (fun r => decide (f r ≤ f x))))
              = (decide (f p < f x) && (l.all (fun r => decide (f r ≤ f x)))) := by
            intro x hx
            by_cases hall : ∀ r ∈ l, f r ≤ f x
            · have h1 : f p < f x := lt_of_lt_of_le hfq (hall q hq)
              have h2 : c < f x := lt_trans hcp h1
              simp only [List.all_cons, List.all_eq_true, decide_eq_true_eq]
              simp [h1, h2, le_of_lt h1, hall]
            · push_neg at hall
              obtain ⟨r, hr, hfr⟩ := hall
              have hf : (l.all fun s => decide (f s ≤ f x)) = false := by
                apply Bool.eq_false_iff.mpr
                simp only [ne_eq, List.all_eq_true, decide_eq_true_eq, not_forall]
                exact ⟨r, hr, not_le.mpr hfr⟩
              simp only [List.all_cons]
              rw [hf]
              simp
          rw [find?_congr l _ _ hcong]
          rcases hfind : l.find? (fun x => decide (f p < f x) &&
              (l.all (fun r => decide (f r ≤ f x)))) with _ | r
          · exfalso
            have hne : l ≠ [] := List.ne_nil_of_mem hq
            rcases hm : l.argmax f with _ | m
            · exact hne (List.argmax_eq_none.mp hm)
            · have hmem : m ∈ l := List.argmax_mem hm
              have hdomm : ∀ x ∈ l, f x ≤ f m := fun x hx =>
                List.le_of_mem_argmax hx hm
              have hPm : (fun x => decide (f p < f x) &&
                  (l.all (fun r => decide (f r ≤ f x)))) m = true := by
                simp only [Bool.and_eq_true, decide_eq_true_eq, List.all_eq_true,
                  decide_eq_true_eq]
                exact ⟨lt_of_lt_of_le hfq (hdomm q hq), hdomm⟩
              exact (List.find?_eq_none.mp hfind m hmem) hPm
          · simp [firstMaxAbove, hfind]
      · have hstep : topStep f (o, c) p = (o, c) := by
          simp [topStep, hcp]
        rw [List.foldl_cons, hstep, ih o c]
        have hP : ¬ ((fun r => decide (c < f r) &&
            ((p :: l).all (fun x => decide (f x ≤ f r)))) p = true) := by
          simp only [Bool.and_eq_true, decide_eq_true_eq, not_and]
          intro h
          exact absurd h hcp
        have hcong : ∀ x ∈ l,
            (decide (c < f x) && ((p :: l).all (fun r => decide (f r ≤ f x))))
            = (decide (c < f x) && (l.all (fun r => decide (f r ≤ f x)))) := by
          intro x hx
          by_cases hcx : c < f x
          · have hpx : f p ≤ f x := le_trans (not_lt.mp hcp) (le_of_lt hcx)
            simp only [List.all_cons, List.all_eq_true, decide_eq_true_eq]
            simp [hcx, hpx]
          · simp [hcx]
        simp only [firstMaxAbove]
        rw [List.find?_cons_of_neg l hP, find?_congr l _ _ hcong]

/-- C1: `getPrimaryVisiblePage` implements the claimed decision cascade:
the page containing the viewport center (largest visible fraction, earliest
on ties) whenever that fraction exceeds `0.35`; otherwise the page of
largest visible-height-to-viewport ratio among those exceeding `0.4`;
otherwise the tracked page with confidence `0.3` when tracking is
initialized, then the renderer's truthy reported page with confidence
`0.25`, and `null` only when none of these exist. -/
theorem getPrimaryVisiblePage_eq_spec (s : HSnap) :
    getPrimaryVisiblePage s = getPrimaryVisiblePageSpec s := by
  unfold getPrimaryVisiblePage getPrimaryVisiblePageSpec afterCenter
    specAfterCenter centerPick bestPick
  rw [selFold_filter, selFold_filter, foldl_topStep_eq, foldl_topStep_eq]
  rcases h1 : firstMaxAbove (centerFrac s) ((pageList s).filter (centerCand s)) 0
    with _ | p
  <;> rcases h2 : firstMaxAbove (bestFrac s) ((pageList s).filter (bestCand s)) 0
    with _ | q
  <;> simp

/-- Every page in the scanned list lies between the computed bounds. -/
lemma pageList_mem_bounds (s : HSnap) :
    ∀ p ∈ pageList s, (pageRange s).1 ≤ p ∧ p ≤ (pageRange s).2 := by
  intro p hp
  unfold pageList at hp
  rw [List.mem_range'_1] at hp
  omega

/-- The computed bounds stay inside the document. -/
lemma pageRange_in_doc (s : HSnap) :
    1 ≤ (pageRange s).1 ∧ (pageRange s).2 ≤ s.numPages := by
  rcases htr : s.tracked with _ | t <;> rcases hin : s.initialized
  · simp [pageRange, htr, hin]
  · simp [pageRange, htr, hin]
  · simp [pageRange, htr, hin]
  · by_cases h : 2 < natDist (pdfJsPage s) t <;>
      simp [pageRange, htr, hin, h]

/-- C3 (amended): when a page is tracked and tracking is initialized, the
scan window has radius 2 around the tracked page, or radius 3 around the
renderer's reported page when the two differ by more than 2, clamped to
`[1, numPages]`; the scan bounds are the full `[1, numPages]` fallback
exactly when no page is tracked or tracking is not initialized. -/
theorem pageRange_scan_windows (s : HSnap) :
    ((s.tracked = none ∨ s.initialized = false) → pageRange s = (1, s.numPages))
  ∧ (∀ t, s.tracked = some t → s.initialized = true →
      (2 < natDist (pdfJsPage s) t →
        pageRange s = (max 1 (pdfJsPage s - 3), min s.numPages (pdfJsPage s + 3))
        ∧ ∀ p ∈ pageList s, natDist p (pdfJsPage s) ≤ 3)
      ∧ (natDist (pdfJsPage s) t ≤ 2 →
        pageRange s = (max 1 (t - 2), min s.numPages (t + 2))
        ∧ ∀ p ∈ pageList s, natDist p t ≤ 2))
  ∧ (∀ p ∈ pageList s, 1 ≤ p ∧ p ≤ s.numPages) := by
  refine ⟨?_, ?_, ?_⟩
  · rintro (htr | hin)
    · simp [pageRange, htr]
    · rcases htr : s.tracked with _ | t
      · simp [pageRange, htr]
      · simp [pageRange, htr, hin]
  · intro t htr hin
    constructor
    · intro hfar
      have hrange : pageRange s
          = (max 1 (pdfJsPage s - 3), min s.numPages (pdfJsPage s + 3)) := by
        simp [pageRange, htr, hin, hfar]
      refine ⟨hrange, ?_⟩
      intro p hp
      have hb := pageList_mem_bounds s p hp
      rw [hrange] at hb
      have h1 : pdfJsPage s - 3 ≤ p := le_trans (le_max_right _ _) hb.1
      have h2 : p ≤ pdfJsPage s + 3 := le_trans hb.2 (min_le_right _ _)
      unfold natDist
      exact max_le (by omega) (by omega)
    · intro hnear
      have hfar : ¬ 2 < natDist (pdfJsPage s) t := not_lt.mpr hnear
      have hrange : pageRange s = (max 1 (t - 2), min s.numPages (t + 2)) := by
        simp [pageRange, htr, hin, hfar]
      refine ⟨hrange, ?_⟩
      intro p hp
      have hb := pageList_mem_bounds s p hp
      rw [hrange] at hb
      have h1 : t - 2 ≤ p := le_trans (le_max_right _ _) hb.1
      have h2 : p ≤ t + 2 := le_trans hb.2 (min_le_right _ _)
      unfold natDist
      exact max_le (by omega) (by omega)
  · intro p hp
    have hb := pageList_mem_bounds s p hp
    have hd := pageRange_in_doc s
    exact ⟨le_trans hd.1 hb.1, le_trans hb.2 hd.2⟩

/-- C3 witness: the three window shapes at concrete snapshots — full scan
with nothing tracked; radius-3 window around the renderer's page 20 when it
drifted from tracked page 5; radius-2 window around tracked page 5 when the
renderer agrees. -/
theorem pageRange_scan_windows_witness :
    pageRange sUntracked = (1, 10)
  ∧ pageRange sTrackedFar = (17, 23)
  ∧ pageRange sTrackedNear = (3, 7) := by
  refine ⟨(pageRange_scan_windows sUntracked).1 (Or.inl rfl), ?_, ?_⟩
  · exact (((pageRange_scan_windows sTrackedFar).2.1 5 rfl rfl).1 (by decide)).1
  · exact (((pageRange_scan_windows sTrackedNear).2.1 5 rfl rfl).2 (by decide)).1

/-- C3 counterexample: with a tracked page present but tracking not
initialized, `getPrimaryVisiblePage` still scans all pages from 1 to
`numPages` — refuting "only when no tracked page exists does it scan all
pages": page 99 is examined although it is far outside both windows around
tracked page 5. -/
theorem pageRange_fullscan_with_tracked_cex :
    sTrackedUninit.tracked = some 5
  ∧ pageRange sTrackedUninit = (1, 100)
  ∧ 99 ∈ pageList sTrackedUninit
  ∧ 3 < natDist 99 5 :=
  ⟨rfl, rfl, by decide, by decide⟩

/-- C6: a `checkPageChange` call made while a previous check is still in
progress, or within 100 ms of the last accepted check, returns without
modifying any tracking state and without firing `onPageChange`. -/
theorem checkPageChange_guarded (st : TrackState) (now : Int)
    (res : Option (Nat × Rat)) (pdfJs : Nat)
    (h : st.isChecking = true ∨ now - st.lastCheckTime < 100) :
    checkPageChange st now res pdfJs = (st, []) := by
  unfold checkPageChange
  rcases h with h | h
  · simp [h]
  · by_cases hC : st.isChecking = true
    · simp [hC]
    · simp [hC, h]

/-- C6 witness: a concrete guarded call — a check issued while the checking
flag is set leaves the state untouched and fires nothing. -/
theorem checkPageChange_guarded_witness :
    checkPageChange { initialTrackState with isChecking := true } 0 none 0
      = ({ initialTrackState with isChecking := true }, []) :=
  checkPageChange_guarded { initialTrackState with isChecking := true } 0 none 0
    (Or.inl rfl)

/-- C5: the `pdfHighlighterUtils` record exposes the scroll-to operation,
the search operations, and the page-navigation operations, each wired to
the corresponding implementation, alongside the selection and tip
utilities. -/
theorem pdfHighlighterUtils_api (B V S : Type) :
    (pdfHighlighterUtils B V S).scrollToHighlight = scrollToHighlight B V
  ∧ (pdfHighlighterUtils B V S).searchText = searchText
  ∧ (pdfHighlighterUtils B V S).findNext = findNext
  ∧ (pdfHighlighterUtils B V S).findPrevious = findPrevious
  ∧ (pdfHighlighterUtils B V S).clearSearch = clearSearch
  ∧ (pdfHighlighterUtils B V S).goToPage = goToPage
  ∧ (pdfHighlighterUtils B V S).getCurrentPage = getCurrentPage
  ∧ (pdfHighlighterUtils B V S).isEditingOrHighlighting = isEditingOrHighlighting
  ∧ (pdfHighlighterUtils B V S).toggleEditInProgress = toggleEditInProgress
  ∧ (pdfHighlighterUtils B V S).isSelectionInProgress = isSelectionInProgress :=
  ⟨rfl, rfl, rfl, rfl, rfl, rfl, rfl, rfl, rfl, rfl⟩

/-- C10: with the viewer ready, `handleScaleValue` passes `"auto"` through,
clamps every numeric scale into `[0.1, 10.0]` before assigning it, and
leaves the scale unchanged on a `NaN` parse. -/
theorem handleScaleValue_clamps (q : Rat) :
    handleScaleValue true .auto = .setAuto
  ∧ handleScaleValue true (.num q) = .setValue (min (max q (1/10)) 10)
  ∧ ((1 : Rat)/10 ≤ min (max q (1/10)) 10 ∧ min (max q (1/10)) 10 ≤ 10)
  ∧ handleScaleValue true .nonNumeric = .unchanged := by
  refine ⟨rfl, rfl, ⟨?_, ?_⟩, rfl⟩
  · exact le_min (le_max_right _ _) (by norm_num)
  · exact min_le_right _ _

/-- C2: every `PdfSelection` that `handleMouseUp` delivers to the
`onSelection` callback carries the position obtained by converting the
device-pixel viewport position — the bounding rect and client rects of the
DOM range — through `viewportPositionToScaled` (the parameter `toScaled`),
and is a text selection. -/
theorem handleMouseUp_scaled_position (S : Type) (toScaled : ViewportPos → S)
    (getRects : List Nat → List Rect) (getBound : List Rect → Rect)
    (env : MouseUpEnv) (sel : PdfSelection S)
    (h : handleMouseUp S toScaled getRects getBound env = some sel) :
    sel.position = toScaled { boundingRect := getBound (getRects env.pages),
                              rects := getRects env.pages }
    ∧ sel.type = .text := by
  simp only [handleMouseUp] at h
  split_ifs at h
  all_goals simp only [Option.some.injEq] at h
  subst h
  exact ⟨rfl, rfl⟩

/-- C2 witness: on a concrete completed selection with the identity
conversion, the delivered position is exactly the viewport position built
from the range's rectangles. -/
theorem handleMouseUp_scaled_position_witness :
    sel0.position = { boundingRect := rect0, rects := [rect0] }
    ∧ sel0.type = .text :=
  handleMouseUp_scaled_position ViewportPos (fun vp => vp) (fun _ => [rect0])
    (fun _ => rect0) env0 sel0 rfl

/-- C7: selections reported to `onSelection` are tagged with exactly one of
the two types — pointer text selections carry type `"text"` with textual
content and no image, and rectangular area selections carry type `"area"`
with image content and no text. -/
theorem selection_type_dichotomy (S : Type) :
    (∀ (toScaled : ViewportPos → S) (getRects : List Nat → List Rect)
        (getBound : List Rect → Rect) (env : MouseUpEnv)
        (sel : PdfSelection S),
        handleMouseUp S toScaled getRects getBound env = some sel →
          sel.type = .text ∧ sel.content.text.isSome = true
            ∧ sel.content.image = none)
  ∧ (∀ (vp : ViewportPos) (sp : S) (img : String),
      (mouseSelectionOnSelection S vp sp img).type = .area
      ∧ (mouseSelectionOnSelection S vp sp img).content.image = some img
      ∧ (mouseSelectionOnSelection S vp sp img).content.text = none) := by
  constructor
  · intro toScaled getRects getBound env sel h
    simp only [handleMouseUp] at h
    split_ifs at h
    all_goals simp only [Option.some.injEq] at h
    subst h
    exact ⟨rfl, rfl, rfl⟩
  · intro vp sp img
    exact ⟨rfl, rfl, rfl⟩

/-- C7 witness: the two tags at concrete selections — `sel0` is a text
selection with text content only, and a concrete area selection carries an
image only. -/
theorem selection_type_dichotomy_witness :
    (sel0.type = .text ∧ sel0.content.text.isSome = true
      ∧ sel0.content.image = none)
  ∧ ((mouseSelectionOnSelection ViewportPos vp0 vp0 "img").type = .area
      ∧ (mouseSelectionOnSelection ViewportPos vp0 vp0 "img").content.image
          = some "img"
      ∧ (mouseSelectionOnSelection ViewportPos vp0 vp0 "img").content.text
          = none) :=
  ⟨(selection_type_dichotomy ViewportPos).1 (fun vp => vp) (fun _ => [rect0])
      (fun _ => rect0) env0 sel0 rfl,
   (selection_type_dichotomy ViewportPos).2 vp0 vp0 "img"⟩

/-- C9: for every page number that is `NaN`, below `1` or above the
document's page count, `goToPage` ends in a warning (not-ready or
invalid-page, never a scroll), and `scrollToHighlight` on a highlight whose
bounding rect carries that page number returns the invalid-page warning
without scrolling. -/
theorem invalid_page_noop (B V : Type) (viewerP linkP : Bool) (numPages : Nat)
    (throws : Bool) (pn : JSNum) (getView : Nat → Option (Rat × V))
    (scaledTop : B → V → Bool → Rat) (pno : B → JSNum) (hl : HighlightT B)
    (pad : Option Rat) (hpn : pno hl.position.boundingRect = pn)
    (hinv : pn = none ∨ ∃ q : Rat, pn = some q ∧ (q < 1 ∨ (numPages : Rat) < q)) :
    (goToPage viewerP linkP numPages throws pn = .warnNotReady
      ∨ goToPage viewerP linkP numPages throws pn = .warnInvalidPage)
  ∧ scrollToHighlight B V numPages getView scaledTop pno hl pad
      = .warnInvalidPage := by
  constructor
  · unfold goToPage
    by_cases hv : (!viewerP || !linkP) = true
    · left
      simp [hv]
    · right
      rcases hinv with rfl | ⟨q, rfl, hq⟩
      · simp [hv]
      · simp [hv, hq]
  · unfold scrollToHighlight
    rw [hpn]
    rcases hinv with rfl | ⟨q, rfl, hq⟩
    · rfl
    · simp [hq]

/-- C9 witness: with viewer and services present, a `NaN` page number makes
`goToPage` warn and `scrollToHighlight` return the invalid-page warning. -/
theorem invalid_page_noop_witness :
    (goToPage true true 10 false none = .warnNotReady
      ∨ goToPage true true 10 false none = .warnInvalidPage)
  ∧ scrollToHighlight Unit Unit 10 (fun _ => none) (fun _ _ _ => 0)
      (fun _ => none) hNaN none = .warnInvalidPage :=
  invalid_page_noop Unit Unit true true 10 false none (fun _ => none)
    (fun _ _ _ => 0) (fun _ => none) hNaN none rfl (Or.inl rfl)

/-- With both guards passing, `checkPageChange` reduces to its branch
structure. -/
lemma checkPageChange_unguarded (st : TrackState) (now : Int)
    (res : Option (Nat × Rat)) (pdfJs : Nat)
    (hchk : st.isChecking = false) (htime : 100 ≤ now - st.lastCheckTime) :
    checkPageChange st now res pdfJs =
      (let st1 : TrackState := { st with lastCheckTime := now }
       match res with
       | none => (st1, [])
       | some (p, c) =>
           if st1.tracked = some p then
             ({ st1 with pending := none, pendingCount := 0, timeout := none },
              [])
           else
             match st1.tracked with
             | none => bigJump st1 p c pdfJs
             | some t =>
                 if 1 < natDist p t then bigJump st1 p c pdfJs
                 else if natDist p t = 1 then nearBranch st1 p c
                 else (st1, [])) := by
  unfold checkPageChange
  simp [hchk, not_lt.mpr htime]
/-- C4 (amended): confidence-based hysteresis of `checkPageChange`, for a
computed page `p` with confidence `c` under passing guards.  A jump of more
than one page (or with no tracked page) commits immediately exactly when the
confidence reaches the minimum (`0.4` with no tracked page, `0.3`
otherwise) — or when the computed page coincides with the renderer's truthy
reported page, which the low-confidence fallback commits regardless.  A
one-page change commits immediately exactly above confidence `0.55`;
otherwise it arms the delayed confirmation recheck exactly once the same
pending page has been observed at least twice, and the recheck commits
exactly when the fresh result names the captured page, still different from
the tracked page, with confidence above `0.35`. -/
theorem checkPageChange_hysteresis (st : TrackState) (now : Int) (p : Nat)
    (c : Rat) (pdfJs : Nat)
    (hchk : st.isChecking = false)
    (htime : 100 ≤ now - st.lastCheckTime) :
    ((st.tracked = none ∨ ∀ t, st.tracked = some t → 1 < natDist p t) →
      (p ∈ (checkPageChange st now (some (p, c)) pdfJs).2 ↔
        ((if st.tracked = none then (2 : Rat)/5 else 3/10) ≤ c
          ∨ (pdfJs = p ∧ pdfJs ≠ 0))))
  ∧ (∀ t, st.tracked = some t → natDist p t = 1 →
      (p ∈ (checkPageChange st now (some (p, c)) pdfJs).2 ↔ (11 : Rat)/20 < c))
  ∧ (∀ t, st.tracked = some t → natDist p t = 1 → ¬ (11 : Rat)/20 < c →
      ((checkPageChange st now (some (p, c)) pdfJs).1.timeout
          = some (.recheck p) ↔
        2 ≤ (if st.pending = some p then st.pendingCount + 1 else 1)))
  ∧ (∀ (st2 : TrackState) (q : Nat) (res2 : Option (Nat × Rat)),
      (fireRecheck st2 q res2).2 ≠ [] ↔
        ∃ c2, res2 = some (q, c2) ∧ some q ≠ st2.tracked
          ∧ (7 : Rat)/20 < c2) := by
  rw [checkPageChange_unguarded st now (some (p, c)) pdfJs hchk htime]
  refine ⟨?_, ?_, ?_, ?_⟩
  · intro hbranch
    rcases htr : st.tracked with _ | t
    · by_cases hc : c < (2 : Rat)/5
      · by_cases hf : pdfJs = 0
        · simp [htr, hc, hf, not_le.mpr hc, bigJump, commitPage]
        · simp [htr, hc, hf, not_le.mpr hc, bigJump, commitPage, eq_comm]
      · simp [htr, bigJump, commitPage, hc, not_lt.mp hc]
    · have hdist : 1 < natDist p t := by
        rcases hbranch with hnone | hfar
        · rw [htr] at hnone
          exact absurd hnone (by simp)
        · exact hfar t htr
      have hpt : ¬ t = p := by
        intro hcon
        rw [hcon] at hdist
        simp [natDist] at hdist
      by_cases hc : c < (3 : Rat)/10
      · by_cases hf : pdfJs = 0
        · simp [htr, hc, hf, hpt, hdist, not_le.mpr hc, bigJump, commitPage]
        · by_cases hfp : pdfJs = p
          · have hp0 : ¬ p = 0 := hfp ▸ hf
            simp [htr, hc, hf, hfp, hpt, hdist, not_le.mpr hc, bigJump,
              commitPage, Ne.symm hpt, hp0]
          · have hfp2 : ¬ p = pdfJs := fun hcon => hfp hcon.symm
            simp only [htr, hc, hf, hfp, hpt, hdist, not_le.mpr hc, bigJump,
              commitPage, Ne.symm hpt]
            simp [htr, hc, hf, hfp, hfp2, hpt, hdist, not_le.mpr hc, bigJump,
              commitPage]
            by_cases hft : pdfJs = t <;> simp [hft, hfp2, not_le.mpr hc]
      · simp [htr, bigJump, commitPage, hc, hpt, hdist, not_lt.mp hc]
  · intro t htr hdist
    have hpt : ¬ t = p := by
      intro hcon
      rw [hcon] at hdist
      simp [natDist] at hdist
    have hnlt : ¬ 1 < natDist p t := by rw [hdist]; exact lt_irrefl 1
    by_cases hc : (11 : Rat)/20 < c
    · simp [htr, hpt, hnlt, hdist, hc, nearBranch, commitPage]
    · simp only [htr, hpt, hnlt, hdist, hc, nearBranch, commitPage]
      simp [hpt, hnlt, hdist, hc]
      split <;> (try split) <;> simp
  · intro t htr hdist hc
    have hpt : ¬ t = p := by
      intro hcon
      rw [hcon] at hdist
      simp [natDist] at hdist
    have hnlt : ¬ 1 < natDist p t := by rw [hdist]; exact lt_irrefl 1
    by_cases hcount : 2 ≤ (if st.pending = some p then st.pendingCount + 1 else 1)
    · simp [htr, hpt, hnlt, hdist, hc, hcount, nearBranch, commitPage]
    · simp [htr, hpt, hnlt, hdist, hc, hcount, nearBranch, commitPage]
  · intro st2 q res2
    rcases res2 with _ | ⟨q2, c2⟩
    · simp [fireRecheck]
    · simp only [fireRecheck]
      constructor
      · intro hne
        by_cases hcond : q2 = q ∧ some q ≠ st2.tracked ∧ (7 : Rat)/20 < c2
        · exact ⟨c2, by rw [hcond.1], hcond.2.1, hcond.2.2⟩
        · rw [if_neg hcond] at hne
          simp at hne
      · rintro ⟨c3, hres, hne2, hc3⟩
        simp only [Option.some.injEq, Prod.mk.injEq] at hres
        obtain ⟨rfl, rfl⟩ := hres
        rw [if_pos ⟨rfl, hne2, hc3⟩]
        simp

/-- C4 counterexample to the claim as stated: from the initial state (no
tracked page, minimum `0.4`), a computed page with confidence `0.2` is
nevertheless committed immediately — because it coincides with the
renderer's reported page, which the low-confidence fallback commits. -/
theorem checkPageChange_lowconf_commit_cex :
    (checkPageChange initialTrackState 1000 (some (2, 1/5)) 2).2 = [2]
  ∧ ((1 : Rat)/5 < 2/5) := by
  constructor
  · norm_num [checkPageChange, bigJump, commitPage, initialTrackState]
    simp
  · norm_num

/-- C4 witness: a far jump with sufficient confidence commits immediately,
and a one-page change with confidence `0.6 > 0.55` commits immediately. -/
theorem checkPageChange_hysteresis_witness :
    (3 ∈ (checkPageChange initialTrackState 1000 (some (3, 1/2)) 0).2)
  ∧ (2 ∈ (checkPageChange
        { initialTrackState with tracked := some 1, initialized := true }
        1000 (some (2, 3/5)) 0).2) := by
  constructor
  · exact ((checkPageChange_hysteresis initialTrackState 1000 3 (1/2) 0 rfl
      (by decide)).1 (Or.inl rfl)).mpr (Or.inl (by norm_num [initialTrackState]))
  · exact ((checkPageChange_hysteresis
      { initialTrackState with tracked := some 1, initialized := true }
      1000 2 (3/5) 0 rfl (by decide)).2.1 1 rfl (by decide)).mpr (by norm_num)
lemma bigJump_fire (st : TrackState) (p : Nat) (c : Rat) (pdfJs : Nat)
    (hp : st.tracked ≠ some p) :
    FiresProperly st.tracked (bigJump st p c pdfJs) := by
  unfold FiresProperly bigJump commitPage
  by_cases hc : c < (if st.tracked = none then (2 : Rat)/5 else 3/10)
  · rw [if_pos hc]
    by_cases hf : pdfJs ≠ 0 ∧ some pdfJs ≠ st.tracked
    · rw [if_pos hf]
      exact Or.inr ⟨pdfJs, rfl, rfl, fun hcon => hf.2 hcon.symm⟩
    · rw [if_neg hf]
      exact Or.inl ⟨rfl, rfl⟩
  · rw [if_neg hc]
    exact Or.inr ⟨p, rfl, rfl, hp⟩

lemma nearBranch_fire (st : TrackState) (p : Nat) (c : Rat)
    (hp : st.tracked ≠ some p) :
    FiresProperly st.tracked (nearBranch st p c) := by
  unfold FiresProperly nearBranch commitPage
  by_cases hc : (11 : Rat)/20 < c
  · rw [if_pos hc]
    exact Or.inr ⟨p, rfl, rfl, hp⟩
  · rw [if_neg hc]
    dsimp only
    split <;> split <;> exact Or.inl ⟨rfl, rfl⟩

lemma checkPageChange_fire (st : TrackState) (now : Int)
    (res : Option (Nat × Rat)) (pdfJs : Nat) :
    FiresProperly st.tracked (checkPageChange st now res pdfJs) := by
  obtain ⟨tr, cur, pend, pcount, tout, init, chk, last⟩ := st
  unfold checkPageChange
  dsimp only
  split
  · exact Or.inl ⟨rfl, rfl⟩
  split
  · exact Or.inl ⟨rfl, rfl⟩
  rcases res with _ | ⟨p, c⟩
  · exact Or.inl ⟨rfl, rfl⟩
  dsimp only
  split
  · exact Or.inl ⟨rfl, rfl⟩
  rename_i hne
  rcases tr with _ | t
  · exact bigJump_fire _ p c pdfJs (by simp)
  · dsimp only
    split
    · exact bigJump_fire _ p c pdfJs hne
    · split
      · exact nearBranch_fire _ p c hne
      · exact Or.inl ⟨rfl, rfl⟩

lemma fireRecheck_fire (st : TrackState) (p : Nat) (res : Option (Nat × Rat)) :
    FiresProperly st.tracked (fireRecheck st p res) := by
  unfold FiresProperly fireRecheck
  rcases res with _ | ⟨q, c⟩
  · exact Or.inl ⟨rfl, rfl⟩
  · dsimp only
    split
    · rename_i hcond
      exact Or.inr ⟨p, rfl, rfl, fun hcon => hcond.2.1 hcon.symm⟩
    · exact Or.inl ⟨rfl, rfl⟩

lemma fireRetry_fire (st : TrackState) (p : Nat) (now : Int)
    (res : Option (Nat × Rat)) (pdfJs : Nat) :
    FiresProperly st.tracked (fireRetry st p now res pdfJs) := by
  unfold fireRetry
  dsimp only
  split
  · exact checkPageChange_fire _ now res pdfJs
  · exact Or.inl ⟨rfl, rfl⟩

lemma updateViewArea_fire (st : TrackState) (pdfJs : Nat) :
    FiresProperly st.tracked (updateViewArea st pdfJs) := by
  obtain ⟨tr, cur, pend, pcount, tout, init, chk, last⟩ := st
  unfold FiresProperly updateViewArea
  dsimp only
  split
  · rcases tr with _ | t
    · exact Or.inl ⟨rfl, rfl⟩
    · dsimp only
      split
      · rename_i hcond
        refine Or.inr ⟨pdfJs, rfl, rfl, ?_⟩
        intro hcon
        injection hcon with hcon2
        rw [hcon2] at hcond
        simp [natDist] at hcond
      · exact Or.inl ⟨rfl, rfl⟩
  · exact Or.inl ⟨rfl, rfl⟩

lemma trackStep_fire (st : TrackState) (s : TrackStep) :
    FiresProperly st.tracked (trackStep st s) := by
  cases s with
  | check now res pdfJs => exact checkPageChange_fire st now res pdfJs
  | updateView pdfJs => exact updateViewArea_fire st pdfJs
  | timeoutFire now res pdfJs =>
      unfold trackStep
      rcases hto : st.timeout with _ | tk
      · exact Or.inl ⟨rfl, rfl⟩
      · rcases tk with p | p
        · exact fireRecheck_fire st p res
        · exact fireRetry_fire st p now res pdfJs

lemma runSteps_cons (st : TrackState) (s : TrackStep) (rest : List TrackStep) :
    runSteps st (s :: rest) =
      ((runSteps (trackStep st s).1 rest).1,
       (trackStep st s).2 ++ (runSteps (trackStep st s).1 rest).2) := rfl

/-- Along any run, consecutive fired pages differ, and the first fired page
differs from the initially tracked one. -/
lemma runSteps_fire (steps : List TrackStep) : ∀ st : TrackState,
    List.Chain' (fun a b => a ≠ b) ((runSteps st steps).2) ∧
    (∀ q, ((runSteps st steps).2).head? = some q → st.tracked ≠ some q) := by
  induction steps with
  | nil =>
      intro st
      exact ⟨List.chain'_nil, fun q hq => by simp [runSteps] at hq⟩
  | cons s rest ih =>
      intro st
      rw [runSteps_cons]
      rcases trackStep_fire st s with ⟨he, htr2⟩ | ⟨p, he, hp1, hp2⟩
      · rw [he]
        simp only [List.nil_append]
        refine ⟨(ih _).1, ?_⟩
        intro q hq
        exact htr2 ▸ (ih _).2 q hq
      · rw [he]
        rw [List.singleton_append]
        constructor
        · rw [List.chain'_cons']
          constructor
          · intro q hq
            have h2 := (ih _).2 q hq
            rw [hp1] at h2
            intro hcon
            exact h2 (by rw [hcon])
          · exact (ih _).1
        · intro q hq
          rw [List.head?_cons] at hq
          injection hq with hq2
          rw [← hq2]
          exact hp2

/-- C8 (amended): across every interleaving of `checkPageChange` calls,
armed-timeout firings and `updateviewarea` events starting from the initial
state, the pages reported to `onPageChange` never repeat in adjacent
invocations — each such transition fires only a page differing from the
tracked one and then tracks it.  (The `pagesinit` handler is the exception;
see the counterexample.) -/
theorem onPageChange_no_adjacent_repeat (steps : List TrackStep) :
    List.Chain' (fun a b => a ≠ b) ((runSteps initialTrackState steps).2) :=
  (runSteps_fire steps initialTrackState).1

/-- C8 counterexample to the claim as stated: a `checkPageChange` commit of
page 2 followed by the delayed `pagesinit` callback observing the same page
with confidence above `0.3` fires `onPageChange` twice in a row with page 2
— the `pagesinit` handler does not compare against the tracked page. -/
theorem onPageChange_repeat_cex :
    ((checkPageChange initialTrackState 1000 (some (2, 1/2)) 2).2
      ++ (pagesInitFire (checkPageChange initialTrackState 1000
            (some (2, 1/2)) 2).1 (some (2, 1/2)) 2).2 = [2, 2])
  ∧ ¬ List.Chain' (fun a b => a ≠ b) [2, 2] := by
  constructor
  · norm_num [checkPageChange, bigJump, commitPage, pagesInitFire,
      initialTrackState]
    simp
  · intro h
    rw [List.chain'_cons] at h
    exact h.1 rfl

end PdfHighlighterSpec
